import Mathlib

/-!
# Verification of the MachineToten kiosk server

Shallow embedding of the REST handlers in `src/server.js` (file-backed
variant) and `src/backend/server.js` (SQLite variant), together with the
cart-suggestion helper in `src/services/geminiService.ts`.

JavaScript numbers are modelled as rationals (`ℚ`), JSON arrays as lists,
absent / non-matching JSON fields as `Option`, and the nondeterministic
environment inputs (`Date.now()`, `new Date().toISOString()`) as explicit
parameters.  HTTP error responses are modelled as `Except Nat` carrying the
status code.
-/

namespace Kiosk

/-- A line item of an order: `{productId, name, quantity, price}`
(`src/server.js` lines 145–150). -/
structure Item where
  productId : String
  name : String
  quantity : ℚ
  price : ℚ
  deriving DecidableEq, Repr

/-- An order record as built by `POST /api/orders`
(`src/server.js` lines 141–154).  `completedAt` is the extra field stamped
by `DELETE /api/orders/:id`; it is absent (`none`) at creation. -/
structure Order where
  id : String
  userId : String
  userName : String
  items : List Item
  total : ℚ
  timestamp : String
  status : String
  completedAt : Option String := none
  deriving DecidableEq, Repr

/-- A user record as stored in `users.json`
(`src/server.js` lines 81–88). -/
structure User where
  id : String
  name : String
  email : String
  cpf : String
  historico : List Order
  pontos : ℚ
  deriving DecidableEq, Repr

/-- The three JSON files the file-backed server reads and writes:
`users.json`, `orders.json` (active queue) and `user_orders.json`
(history). -/
structure ServerState where
  users : List User
  orders : List Order
  userOrders : List Order
  deriving DecidableEq, Repr

/-- JavaScript `s1 || s2` on an optional string field: an absent field and
the empty string are falsy. -/
def strOr (o : Option String) (d : String) : String :=
  match o with
  | some s => if s = "" then d else s
  | none => d

/-- `String(cpf).replace(/\D/g, '')`: strip every non-digit character. -/
def stripNonDigits (s : String) : String :=
  String.mk (s.data.filter Char.isDigit)

/-- The request body of `POST /api/users`.  `none` marks an absent field. -/
structure UserPayload where
  id : Option String := none
  name : Option String := none
  email : Option String := none
  cpf : Option String := none
  historico : Option (List Order) := none
  pontos : Option ℚ := none
  deriving Repr

/-- `POST /api/users` of `src/server.js` (lines 60–105): reject a missing or
empty (falsy) `cpf` with 400, reject a duplicate normalized CPF with 409,
otherwise append the new user and return it with 201.  `genId` models
`user_` + `Date.now()`. -/
def registerUser (genId : String) (p : UserPayload) (st : ServerState) :
    Except Nat (User × ServerState) :=
  match p.cpf with
  | none => .error 400
  | some c =>
    if c = "" then .error 400
    else
      let cpf := stripNonDigits c
      if st.users.any (fun u => stripNonDigits u.cpf = cpf) then .error 409
      else
        let newUser : User :=
          { id := strOr p.id genId
            name := strOr p.name "Sem Nome"
            email := strOr p.email ""
            cpf := cpf
            historico := p.historico.getD []
            pontos := p.pontos.getD 0 }
        .ok (newUser, { st with users := st.users ++ [newUser] })

/-- The request body of `POST /api/orders`.  `items = none` models a
non-array `items` field; `total = none` models a `total` that is absent or
not of number type. -/
structure OrderPayload where
  userId : Option String := none
  userName : Option String := none
  items : Option (List Item) := none
  total : Option ℚ := none
  deriving Repr

/-- `users[userIdx].historico.push({...order})` after
`users.findIndex(u => u.id === order.userId)` (`src/server.js` lines
160–164): append the order to the historico of the first user whose id
matches; leave the list unchanged when no user matches. -/
def pushHistorico (order : Order) : List User → List User
  | [] => []
  | u :: us =>
    if u.id = order.userId then
      { u with historico := u.historico ++ [order] } :: us
    else u :: pushHistorico order us

/-- `POST /api/orders` of `src/server.js` (lines 126–175): reject a falsy
`userId` or a non-array `items` with 400; otherwise build the order (total
taken from the payload when it is a number, else Σ price×quantity), append
it to the active queue, the history, and the owning user's embedded
historico, and return it with 201.  `genId` and `timestamp` model
`order_` + `Date.now()` and `new Date().toISOString()`. -/
def submitOrder (genId timestamp : String) (p : OrderPayload)
    (st : ServerState) : Except Nat (Order × ServerState) :=
  match p.userId, p.items with
  | some uid, some its =>
    if uid = "" then .error 400
    else
      let total :=
        match p.total with
        | some t => t
        | none => its.foldl (fun acc it => acc + it.price * it.quantity) 0
      let order : Order :=
        { id := genId
          userId := uid
          userName := strOr p.userName ""
          items := its.map (fun it =>
            { productId := it.productId
              name := it.name
              quantity := it.quantity
              price := it.price })
          total := total
          timestamp := timestamp
          status := "active"
          completedAt := none }
      .ok (order,
        { users := pushHistorico order st.users
          orders := st.orders ++ [order]
          userOrders := st.userOrders ++ [order] })
  | _, _ => .error 400

/-- The state of the three JSON files after `POST /api/orders`: on the 400
path the handler returns before reading or writing anything, so the files
are untouched. -/
def submitOrderState (genId timestamp : String) (p : OrderPayload)
    (st : ServerState) : ServerState :=
  match submitOrder genId timestamp p st with
  | .ok (_, st') => st'
  | .error _ => st

/-- The active-queue file is covered by the history file: every id in
`orders.json` occurs in `user_orders.json`.  `submitOrder` appends the new
order to both files, so it preserves this invariant; `completeOrder` only
removes from the active queue.  This is the system invariant that the
history hypotheses of the completion theorems rely on. -/
def ActiveCoveredByHistory (st : ServerState) : Prop :=
  ∀ o ∈ st.orders, ∃ h ∈ st.userOrders, h.id = o.id

/-- `DELETE /api/orders/:id` of `src/server.js` (lines 178–202): 404 when no
active order has the id; otherwise drop it from the active queue and mark
every history record with that id as completed, stamping `completedAt`.
`now` models `new Date().toISOString()`. -/
def completeOrder (now id : String) (st : ServerState) :
    Except Nat ServerState :=
  if st.orders.any (fun o => o.id = id) then
    .ok { st with
          orders := st.orders.filter (fun o => o.id ≠ id)
          userOrders := st.userOrders.map (fun o =>
            if o.id = id then
              { o with status := "completed", completedAt := some now }
            else o) }
  else .error 404

/-- The state of the three JSON files after `DELETE /api/orders/:id`: on the
404 path the handler returns before any `writeJson` call, so the files are
untouched. -/
def completeOrderState (now id : String) (st : ServerState) : ServerState :=
  match completeOrder now id st with
  | .ok st' => st'
  | .error _ => st

/-- `GET /api/orders` of `src/server.js` (lines 110–113): return the stored
active-orders collection as-is. -/
def listActiveOrders (st : ServerState) : List Order :=
  st.orders

/-- `GET /api/user-orders` of `src/server.js` (lines 116–123): filter the
history by `userId` when that query parameter is truthy, else return it
whole. -/
def listHistory (userId : Option String) (st : ServerState) : List Order :=
  match userId with
  | some uid =>
    if uid = "" then st.userOrders
    else st.userOrders.filter (fun o => o.userId = uid)
  | none => st.userOrders

/-! ## SQLite-backed variant (`src/backend/server.js`) -/

/-- `POST /api/users` of `src/backend/server.js` (lines 140–171): reject a
missing or falsy `cpf` with 400, reject a duplicate of the stored
(normalized) CPF with 409, otherwise insert the new user — with
`historico` hard-coded to `[]` and `pontos` hard-coded to `0` — and return
it with 201.  The users table is modelled as the list of its rows. -/
def registerUserDb (genId : String) (p : UserPayload) (users : List User) :
    Except Nat (User × List User) :=
  match p.cpf with
  | none => .error 400
  | some c =>
    if c = "" then .error 400
    else
      let cpfLimpo := stripNonDigits c
      if users.any (fun u => u.cpf = cpfLimpo) then .error 409
      else
        let newUser : User :=
          { id := strOr p.id genId
            name := strOr p.name "Sem Nome"
            email := strOr p.email ""
            cpf := cpfLimpo
            historico := []
            pontos := 0 }
        .ok (newUser, users ++ [newUser])

/-- The comparison `ORDER BY timestamp ASC` sorts rows by the `timestamp`
string column. -/
def byTimestamp (a b : Order) : Prop :=
  a.timestamp ≤ b.timestamp

instance : DecidableRel byTimestamp := fun a b =>
  inferInstanceAs (Decidable (a.timestamp ≤ b.timestamp))

instance : IsTotal Order byTimestamp :=
  ⟨fun a b => le_total a.timestamp b.timestamp⟩

instance : IsTrans Order byTimestamp :=
  ⟨fun _ _ _ hab hbc => le_trans hab hbc⟩

/-- `GET /api/orders` of `src/backend/server.js` (lines 178–188):
`db('orders').where({status: 'active'}).orderBy('timestamp', 'asc')` — the
rows with status `active`, sorted ascending by the timestamp column.  The
orders table is modelled as the list of its rows. -/
def listActiveOrdersDb (orders : List Order) : List Order :=
  (orders.filter (fun o => o.status = "active")).insertionSort byTimestamp

/-! ## Cart-suggestion service (`src/services/geminiService.ts`) -/

/-- A menu product, as used by the suggestion service
(`src/types` `Product`). -/
structure Product where
  id : String
  name : String
  price : ℚ
  category : String
  popular : Bool
  deriving DecidableEq, Repr

/-- A cart line, as used by the suggestion service
(`src/types` `CartItem`): product fields plus a quantity. -/
structure CartItem where
  id : String
  name : String
  price : ℚ
  category : String
  quantity : ℚ
  deriving DecidableEq, Repr

/-- `names.join(" ou ")` / `names.join(" e ")`. -/
def joinWith (sep : String) (names : List String) : String :=
  String.intercalate sep names

/-- The template nudge built by `getDynamicCartSuggestion`
(`src/services/geminiService.ts` lines 155–188): suggest a drink when the
cart has no `Bebida`, else a dessert when it has no `Doce`, else further
popular items; each branch yields the empty string when its candidate list
is empty. -/
def buildSuggestion (clientReference : String) (cartItems : List CartItem)
    (menu : List Product) : String :=
  let cartCategories := cartItems.map CartItem.category
  let cartProductIds := cartItems.map CartItem.id
  if "Bebida" ∉ cartCategories then
    let drinks := menu.filter (fun p =>
      p.category = "Bebida" ∧ p.id ∉ cartProductIds)
    if drinks.length > 0 then
      "Que tal acompanhar com uma bebida, " ++ clientReference ++ "? " ++
        joinWith " ou " (drinks.map Product.name) ++ "?"
    else ""
  else if "Doce" ∉ cartCategories then
    let desserts := menu.filter (fun p =>
      p.category = "Doce" ∧ p.id ∉ cartProductIds)
    if desserts.length > 0 then
      clientReference ++ ", que tal um doce para sobremesa? " ++
        joinWith " ou " (desserts.map Product.name) ++ "?"
    else ""
  else
    let others := menu.filter (fun p =>
      p.id ∉ cartProductIds ∧ p.popular)
    if others.length > 0 then
      clientReference ++ ", que tal adicionar mais? Nossos clientes " ++
        "também adoram " ++ joinWith " e " (others.map Product.name) ++ "!"
    else ""

/-- `getDynamicCartSuggestion` (`src/services/geminiService.ts` lines
140–226).  `aiAvailable` models whether the Gemini client was constructed;
`aiText` models the network call: `none` is a thrown error (the `catch`
returns the template suggestion), `some t` is a response whose extracted
text is `t` (the empty text also falls back to the template). -/
def getDynamicCartSuggestion (aiAvailable : Bool) (aiText : Option String)
    (cartItems : List CartItem) (menu : List Product)
    (userName : Option String) : String :=
  if aiAvailable = false then ""
  else if cartItems.length = 0 then ""
  else
    let clientReference := strOr userName "você"
    let suggestion := buildSuggestion clientReference cartItems menu
    if suggestion = "" then ""
    else
      match aiText with
      | some t => if t = "" then suggestion else t
      | none => suggestion

/-! ## Theorems -/

/-- C1: a submission with a non-empty `userId`, an `items` array, and a
`total` that is absent or not a number is accepted, and the persisted and
returned order's total is Σ(price × quantity) over the items. -/
theorem submitOrder_computes_total (genId timestamp : String)
    (p : OrderPayload) (st : ServerState) (uid : String) (its : List Item)
    (huid : p.userId = some uid) (hne : uid ≠ "")
    (hits : p.items = some its) (htot : p.total = none) :
    ∃ o st', submitOrder genId timestamp p st = .ok (o, st') ∧
      o.total = its.foldl (fun acc it => acc + it.price * it.quantity) 0 ∧
      o ∈ st'.orders ∧ o ∈ st'.userOrders := by
  simp only [submitOrder, huid, hits, htot, if_neg hne]
  exact ⟨_, _, rfl, rfl, by simp, by simp⟩

/-- Witness for C1 at a concrete two-item payload. -/
theorem submitOrder_computes_total_witness :
    let p : OrderPayload :=
      { userId := some "u1", userName := some "Ana"
        items := some
          [⟨"p1", "Pastel de Carne", 2, 25/2⟩, ⟨"p2", "Coca-Cola", 1, 6⟩]
        total := none }
    ∃ o st',
      submitOrder "order_1" "2024-01-01T10:00:00.000Z" p ⟨[], [], []⟩ =
        .ok (o, st') ∧
      o.total = ([⟨"p1", "Pastel de Carne", 2, 25/2⟩,
        (⟨"p2", "Coca-Cola", 1, 6⟩ : Item)].foldl
          (fun acc it => acc + it.price * it.quantity) 0) ∧
      o ∈ st'.orders ∧ o ∈ st'.userOrders :=
  submitOrder_computes_total "order_1" "2024-01-01T10:00:00.000Z" _ _ "u1" _
    rfl (by decide) rfl rfl

/-- C3: completing an order id that is not in the active queue fails with
404, and the three collections (users, active orders, history) are exactly
as before. -/
theorem completeOrder_notFound (now id : String) (st : ServerState)
    (h : ∀ o ∈ st.orders, o.id ≠ id) :
    completeOrder now id st = .error 404 ∧
      completeOrderState now id st = st := by
  have hany : st.orders.any (fun o => o.id = id) = false := by
    simp only [List.any_eq_false, decide_eq_true_eq]
    exact h
  constructor
  · simp [completeOrder, hany]
  · simp [completeOrderState, completeOrder, hany]

/-- Witness for C3: deleting `order_9` from a state whose only active order
is `order_1`. -/
theorem completeOrder_notFound_witness :
    let o1 : Order :=
      { id := "order_1", userId := "u1", userName := ""
        items := [], total := 0, timestamp := "t1", status := "active"
        completedAt := none }
    let st : ServerState := ⟨[], [o1], [o1]⟩
    completeOrder "t2" "order_9" st = .error 404 ∧
      completeOrderState "t2" "order_9" st = st :=
  completeOrder_notFound "t2" "order_9" _ (by decide)

/-- C9: `DELETE /api/orders/:id` never touches `users.json`: the users
collection after the handler runs (on either the success or the 404 path)
is exactly the one before, so the owning user's embedded historico copy of
the order keeps its original status. -/
theorem completeOrder_users_frame (now id : String) (st : ServerState) :
    (completeOrderState now id st).users = st.users := by
  unfold completeOrderState completeOrder
  cases h : st.orders.any fun o => o.id = id <;> simp [h]

theorem submitOrder_preserves_coverage (genId timestamp : String)
    (p : OrderPayload) (st : ServerState) (o : Order) (st' : ServerState)
    (hinv : ActiveCoveredByHistory st)
    (hok : submitOrder genId timestamp p st = .ok (o, st')) :
    ActiveCoveredByHistory st' := by
  unfold submitOrder at hok
  rcases hpu : p.userId with _ | uid <;> rcases hpi : p.items with _ | its <;>
    simp only [hpu, hpi] at hok <;>
    try exact Except.noConfusion hok
  split at hok
  · exact absurd hok (by simp)
  · rw [Except.ok.injEq, Prod.mk.injEq] at hok
    obtain ⟨ho, hst⟩ := hok
    subst hst
    intro x hx
    rcases List.mem_append.mp hx with hx | hx
    · obtain ⟨h, hh, hhid⟩ := hinv x hx
      exact ⟨h, List.mem_append_left _ hh, hhid⟩
    · exact ⟨x, List.mem_append_right _ hx, rfl⟩

theorem completeOrder_preserves_coverage (now id : String)
    (st st' : ServerState) (hinv : ActiveCoveredByHistory st)
    (hok : completeOrder now id st = .ok st') :
    ActiveCoveredByHistory st' := by
  unfold completeOrder at hok
  split at hok
  · rw [Except.ok.injEq] at hok
    subst hok
    intro x hx
    have hx' := List.mem_of_mem_filter hx
    have hxid : x.id ≠ id := by
      have := List.of_mem_filter hx
      simpa using this
    obtain ⟨h, hh, hhid⟩ := hinv x hx'
    refine ⟨if h.id = id then
      { h with status := "completed", completedAt := some now } else h,
      List.mem_map_of_mem _ hh, ?_⟩
    rw [if_neg (by rw [hhid]; exact hxid)]
    exact hhid
  · exact absurd hok (by simp)

/-- C2: completing an order id that is present in the active queue (with
status `active`) and covered by the history succeeds, removes the id from
`listActiveOrders`, and leaves a history record with that id whose status
is `completed` and whose `completedAt` field holds the (non-empty)
completion timestamp. -/
theorem completeOrder_moves_to_history (now id : String) (st : ServerState)
    (hactive : ∃ o ∈ st.orders, o.id = id ∧ o.status = "active")
    (hhist : ∃ o ∈ st.userOrders, o.id = id)
    (hnow : now ≠ "") :
    ∃ st', completeOrder now id st = .ok st' ∧
      (∀ o ∈ listActiveOrders st', o.id ≠ id) ∧
      ∃ r ∈ listHistory none st', r.id = id ∧ r.status = "completed" ∧
        ∃ t, r.completedAt = some t ∧ t ≠ "" := by
  obtain ⟨oa, hoa, hoaid, _⟩ := hactive
  have hany : (st.orders.any fun o => o.id = id) = true := by
    rw [List.any_eq_true]
    exact ⟨oa, hoa, by simp [hoaid]⟩
  unfold completeOrder
  rw [if_pos hany]
  refine ⟨_, rfl, ?_, ?_⟩
  · intro o ho
    have := List.of_mem_filter ho
    simpa using this
  · obtain ⟨oh, hoh, hohid⟩ := hhist
    refine ⟨{ oh with status := "completed", completedAt := some now }, ?_,
      hohid, rfl, now, rfl, hnow⟩
    simp only [listHistory]
    have := List.mem_map_of_mem
      (fun o => if o.id = id then
        ({ o with status := "completed", completedAt := some now } : Order)
        else o) hoh
    simpa [hohid] using this

/-- Witness for C2: completing `order_1` in a state whose active queue and
history both hold exactly that order. -/
theorem completeOrder_moves_to_history_witness :
    let o1 : Order :=
      { id := "order_1", userId := "u1", userName := ""
        items := [], total := 0, timestamp := "t1", status := "active"
        completedAt := none }
    let st : ServerState := ⟨[], [o1], [o1]⟩
    ∃ st', completeOrder "t2" "order_1" st = .ok st' ∧
      (∀ o ∈ listActiveOrders st', o.id ≠ "order_1") ∧
      ∃ r ∈ listHistory none st', r.id = "order_1" ∧
        r.status = "completed" ∧ ∃ t, r.completedAt = some t ∧ t ≠ "" :=
  completeOrder_moves_to_history "t2" "order_1" _
    (by decide) (by decide) (by decide)

/-- C8: every order accepted by `submitOrder` is returned by
`listHistory` filtered to its own user — the very same record, hence with
identical item list and total. -/
theorem submitOrder_roundTrip (genId timestamp : String) (p : OrderPayload)
    (st : ServerState) (o : Order) (st' : ServerState)
    (hok : submitOrder genId timestamp p st = .ok (o, st')) :
    o ∈ listHistory (some o.userId) st' := by
  unfold submitOrder at hok
  rcases hpu : p.userId with _ | uid <;> rcases hpi : p.items with _ | its <;>
    simp only [hpu, hpi] at hok <;>
    try exact Except.noConfusion hok
  split at hok
  · exact absurd hok (by simp)
  · rename_i hne
    rw [Except.ok.injEq, Prod.mk.injEq] at hok
    obtain ⟨ho, hst⟩ := hok
    subst hst
    have houid : o.userId = uid := by rw [← ho]
    simp only [listHistory, houid, if_neg hne]
    rw [List.mem_filter]
    refine ⟨List.mem_append_right _ ?_, by simp [houid]⟩
    simp [← ho]

/-- Witness for C8 at a concrete one-item submission. -/
theorem submitOrder_roundTrip_witness :
    let o : Order :=
      { id := "order_7", userId := "u1", userName := ""
        items := [⟨"p1", "Pastel de Queijo", 1, 10⟩], total := 0 + 10 * 1
        timestamp := "t7", status := "active", completedAt := none }
    o ∈ listHistory (some o.userId) ⟨[], [o], [o]⟩ :=
  submitOrder_roundTrip "order_7" "t7"
    { userId := some "u1", userName := none
      items := some [⟨"p1", "Pastel de Queijo", 1, 10⟩], total := none }
    ⟨[], [], []⟩ _ _ rfl

/-- `replace(/\D/g, '')` is idempotent: a string of digits is unchanged by
stripping non-digits. -/
theorem stripNonDigits_idempotent (s : String) :
    stripNonDigits (stripNonDigits s) = stripNonDigits s := by
  unfold stripNonDigits
  simp [List.filter_filter]

/-- C5: two registration requests whose CPFs normalize to the same string
(of 11 digits), run one after the other against a store with no user of
that normalized CPF, yield exactly one 201 success and one 409 Conflict —
whichever of the two carries the punctuation. -/
theorem registerUser_duplicate_conflict (g1 g2 c1 c2 : String)
    (p1 p2 : UserPayload) (st : ServerState)
    (hc1 : p1.cpf = some c1) (hc2 : p2.cpf = some c2)
    (hne1 : c1 ≠ "") (hne2 : c2 ≠ "")
    (hsame : stripNonDigits c1 = stripNonDigits c2)
    (_hlen : (stripNonDigits c1).length = 11)
    (hfresh : ∀ u ∈ st.users, stripNonDigits u.cpf ≠ stripNonDigits c1) :
    ∃ u st', registerUser g1 p1 st = .ok (u, st') ∧
      registerUser g2 p2 st' = .error 409 := by
  have hany1 : (st.users.any fun u =>
      stripNonDigits u.cpf = stripNonDigits c1) = false := by
    rw [List.any_eq_false]
    intro u hu
    simpa using hfresh u hu
  unfold registerUser
  rw [hc1, hc2]
  simp only [if_neg hne1, if_neg hne2, hany1, Bool.false_eq_true, if_false]
  refine ⟨_, _, rfl, ?_⟩
  have hany2 : ((st.users ++
      [{ id := strOr p1.id g1, name := strOr p1.name "Sem Nome"
         email := strOr p1.email "", cpf := stripNonDigits c1
         historico := p1.historico.getD [], pontos := p1.pontos.getD 0
         : User }]).any fun u =>
      stripNonDigits u.cpf = stripNonDigits c2) = true := by
    rw [List.any_eq_true]
    refine ⟨_, List.mem_append_right _ (List.mem_singleton_self _), ?_⟩
    simp only [decide_eq_true_eq]
    rw [stripNonDigits_idempotent, hsame]
  rw [if_pos hany2]

/-- Witness for C5: `"529.982.247-25"` and `"52998224725"` normalize to the
same 11 digits; against an empty user store the first request succeeds and
the second gets 409. -/
theorem registerUser_duplicate_conflict_witness :
    ∃ u st', registerUser "user_1"
        { cpf := some "529.982.247-25", name := some "Ana" } ⟨[], [], []⟩ =
        .ok (u, st') ∧
      registerUser "user_2"
        { cpf := some "52998224725", name := some "Bia" } st' =
        .error 409 :=
  registerUser_duplicate_conflict "user_1" "user_2"
    "529.982.247-25" "52998224725"
    { cpf := some "529.982.247-25", name := some "Ana" }
    { cpf := some "52998224725", name := some "Bia" }
    ⟨[], [], []⟩
    rfl rfl (by decide) (by decide) (by decide) (by decide)
    (by intro u hu; exact absurd hu (List.not_mem_nil u))

/-- C4 counterexample: a submission with a non-empty `userId` and an EMPTY
`items` array passes the validation of `POST /api/orders`
(`Array.isArray([])` is true), so the handler persists an order with no
items and total 0 instead of rejecting the body with 400. -/
theorem submitOrder_accepts_empty_items :
    ∃ o st', submitOrder "order_1" "2024-01-01T00:00:00.000Z"
      { userId := some "u1", userName := none
        items := some [], total := none } ⟨[], [], []⟩ = .ok (o, st') ∧
      st'.orders = [o] ∧ o.items = [] ∧ o.total = 0 :=
  ⟨_, _, rfl, rfl, rfl, rfl⟩

/-- C4 (amended): a submission whose `userId` is missing or empty, or whose
`items` field is not an array, is rejected with 400 and nothing is
persisted; an empty `items` array, however, passes validation. -/
theorem submitOrder_validation_400 (genId timestamp : String)
    (p : OrderPayload) (st : ServerState)
    (h : p.userId = none ∨ p.userId = some "" ∨ p.items = none) :
    submitOrder genId timestamp p st = .error 400 ∧
      submitOrderState genId timestamp p st = st := by
  have herr : submitOrder genId timestamp p st = .error 400 := by
    unfold submitOrder
    rcases h with h | h | h
    · rcases hpi : p.items with _ | its <;> simp [h, hpi]
    · rcases hpi : p.items with _ | its <;> simp [h, hpi]
    · rcases hpu : p.userId with _ | uid <;> simp [h, hpu]
  refine ⟨herr, ?_⟩
  unfold submitOrderState
  rw [herr]

/-- Witness for the amended C4: a body with no `userId` at all. -/
theorem submitOrder_validation_400_witness :
    submitOrder "order_1" "t1"
      { userId := none, userName := none, items := some [], total := none }
      ⟨[], [], []⟩ = .error 400 ∧
    submitOrderState "order_1" "t1"
      { userId := none, userName := none, items := some [], total := none }
      ⟨[], [], []⟩ = ⟨[], [], []⟩ :=
  submitOrder_validation_400 "order_1" "t1" _ _ (Or.inl rfl)

/-- C6 counterexample: the file-backed `GET /api/orders` returns
`orders.json` as stored, so a store holding a later order before an earlier
one is returned unsorted. -/
theorem listActiveOrders_unsorted :
    let o1 : Order :=
      { id := "order_2", userId := "u1", userName := "", items := []
        total := 0, timestamp := "2024-01-02T00:00:00.000Z"
        status := "active", completedAt := none }
    let o2 : Order :=
      { id := "order_1", userId := "u1", userName := "", items := []
        total := 0, timestamp := "2024-01-01T00:00:00.000Z"
        status := "active", completedAt := none }
    ¬ (listActiveOrders ⟨[], [o1, o2], [o1, o2]⟩).Sorted byTimestamp := by
  intro o1 o2 h
  have h12 := List.rel_of_sorted_cons h _ (List.mem_cons_self _ _)
  have hle : ("2024-01-02T00:00:00.000Z" : String) ≤
      "2024-01-01T00:00:00.000Z" := h12
  rw [String.le_iff_toList_le] at hle
  exact absurd hle (by decide)

/-- C6 (amended): the SQLite-backed `GET /api/orders`
(`ORDER BY timestamp ASC`) returns the active orders sorted by ascending
creation timestamp for every stored permutation; the file-backed variant
returns the stored order unchanged. -/
theorem listActiveOrdersDb_sorted (orders : List Order) :
    (listActiveOrdersDb orders).Sorted byTimestamp :=
  List.sorted_insertionSort byTimestamp _

/-- C7 counterexample: the file-backed `POST /api/users` copies
payload-supplied `historico` and `pontos` into the created user
(`payload.historico || []`, `payload.pontos || 0`), so a payload carrying
`pontos: 5` and a non-empty `historico` yields a user with five points and
a non-empty history. -/
theorem registerUser_keeps_payload_points :
    let ord : Order :=
      { id := "order_0", userId := "u0", userName := "", items := []
        total := 0, timestamp := "t0", status := "active"
        completedAt := none }
    ∃ u st', registerUser "user_1"
      { id := none, name := some "Ana", email := none
        cpf := some "52998224725"
        historico := some [ord], pontos := some 5 } ⟨[], [], []⟩ =
        .ok (u, st') ∧
      u.pontos = 5 ∧ u.historico ≠ [] :=
  ⟨_, _, rfl, rfl, by decide⟩

/-- C7 (amended): the SQLite-backed `POST /api/users` hard-codes
`historico: []` and `pontos: 0`, so every user it creates has zero points
and an empty history regardless of the payload. -/
theorem registerUserDb_zeroes_user (genId : String) (p : UserPayload)
    (users : List User) (u : User) (users' : List User)
    (hok : registerUserDb genId p users = .ok (u, users')) :
    u.pontos = 0 ∧ u.historico = [] := by
  unfold registerUserDb at hok
  rcases hc : p.cpf with _ | c <;> simp only [hc] at hok <;>
    try exact Except.noConfusion hok
  split at hok
  · exact Except.noConfusion hok
  split at hok
  · exact Except.noConfusion hok
  · rw [Except.ok.injEq, Prod.mk.injEq] at hok
    obtain ⟨hu, _⟩ := hok
    rw [← hu]
    exact ⟨rfl, rfl⟩

/-- Witness for the amended C7: a payload that supplies points and history
still yields a zeroed user from the SQLite variant. -/
theorem registerUserDb_zeroes_user_witness :
    let u : User :=
      { id := "user_1", name := "Ana", email := "", cpf := "52998224725"
        historico := [], pontos := 0 }
    u.pontos = 0 ∧ u.historico = [] :=
  registerUserDb_zeroes_user "user_1"
    { id := none, name := some "Ana", email := none
      cpf := some "52998224725"
      historico := some [⟨"order_0", "u0", "", [], 0, "t0", "active", none⟩]
      pontos := some 5 } [] _ _ rfl

/-- The template nudge is empty whenever every candidate list that a branch
could draw from is empty. -/
theorem buildSuggestion_no_candidates (cr : String)
    (cartItems : List CartItem) (menu : List Product)
    (h1 : (menu.filter fun p =>
      p.category = "Bebida" ∧ p.id ∉ cartItems.map CartItem.id) = [])
    (h2 : (menu.filter fun p =>
      p.category = "Doce" ∧ p.id ∉ cartItems.map CartItem.id) = [])
    (h3 : (menu.filter fun p =>
      p.id ∉ cartItems.map CartItem.id ∧ p.popular) = []) :
    buildSuggestion cr cartItems menu = "" := by
  simp only [buildSuggestion]
  by_cases hb : "Bebida" ∉ cartItems.map CartItem.category
  · rw [if_pos hb, h1]
    simp
  · rw [if_neg hb]
    by_cases hd : "Doce" ∉ cartItems.map CartItem.category
    · rw [if_pos hd, h2]
      simp
    · rw [if_neg hd, h3]
      simp

/-- C10: `getDynamicCartSuggestion` returns the empty string — not a
fallback message — whenever the cart is empty, and whenever no nudge
applies because no missing-category (drink / dessert) or popular-item
candidate can be drawn from the menu; this holds for every AI availability
and AI response. -/
theorem getDynamicCartSuggestion_empty_string (aiAvailable : Bool)
    (aiText : Option String) (cartItems : List CartItem)
    (menu : List Product) (userName : Option String)
    (h : cartItems = [] ∨
      ((menu.filter fun p =>
          p.category = "Bebida" ∧ p.id ∉ cartItems.map CartItem.id) = [] ∧
        (menu.filter fun p =>
          p.category = "Doce" ∧ p.id ∉ cartItems.map CartItem.id) = [] ∧
        (menu.filter fun p =>
          p.id ∉ cartItems.map CartItem.id ∧ p.popular) = [])) :
    getDynamicCartSuggestion aiAvailable aiText cartItems menu userName
      = "" := by
  unfold getDynamicCartSuggestion
  cases aiAvailable
  · rfl
  · rcases h with h | ⟨h1, h2, h3⟩
    · subst h
      rfl
    · by_cases hlen : cartItems.length = 0
      · simp [hlen]
      · have hbs := buildSuggestion_no_candidates (strOr userName "você")
          cartItems menu h1 h2 h3
        simp [hlen, hbs]

/-- Witness for C10: an empty cart against a one-drink menu, with the AI
available and answering. -/
theorem getDynamicCartSuggestion_empty_string_witness :
    getDynamicCartSuggestion true (some "Leve um Guaraná!") []
      [{ id := "p1", name := "Guaraná", price := 5
         category := "Bebida", popular := true }] (some "Ana") = "" :=
  getDynamicCartSuggestion_empty_string true (some "Leve um Guaraná!") []
    _ (some "Ana") (Or.inl rfl)

end Kiosk
